import Mathlib

/-!
Shallow embedding of the lexical scanner in src/compiler/lexer/lexer.py.

The source text is modelled as a list of characters; the scanner state
(fields source, pos, line_start, line of class Lexer) is the structure
LexState.  Python indexing errors are modelled by Option: every function
that performs an indexing operation returns none when the index is out of
bounds, and the while-loops of the Python code are modelled with an
explicit fuel parameter (none on fuel exhaustion), so that totality of
the scanner is a theorem rather than a definitional artifact.

Character classification (str.isalpha, str.isdigit, str.lower) is
modelled with Lean's ASCII classifiers, which agree with Python on the
ASCII inputs this development quantifies over.
-/

namespace Lexer

/-- Operator kinds, from class OperatorType. -/
inductive OperatorType where
  | MINUS | ASSIGN_MINUS | PLUS | ASSIGN_PLUS | MUL | ASSIGN_MUL
  | DIV | ASSIGN_DIV | MOD | ASSIGN_MOD | ASSIGN
deriving DecidableEq, Repr

/-- Separator kinds, from class SeparatorType. -/
inductive SeparatorType where
  | PAREN_OPEN | PAREN_CLOSE | BRACE_OPEN | BRACE_CLOSE | SEMICOLON
deriving DecidableEq, Repr

/-- Keyword kinds, from class KeywordType. -/
inductive KeywordType where
  | IF | ELSE | WHILE
deriving DecidableEq, Repr

/-- The method KeywordType.keyword (the enum value: the keyword spelling). -/
def KeywordType.keyword : KeywordType → List Char
  | KeywordType.IF => ['i', 'f']
  | KeywordType.ELSE => ['e', 'l', 's', 'e']
  | KeywordType.WHILE => ['w', 'h', 'i', 'l', 'e']

/-- Source spans, from class Span: zero-based line/column pairs. -/
structure Span where
  startLine : Nat
  startCol : Nat
  endLine : Nat
  endCol : Nat
deriving DecidableEq, Repr

/-- The token hierarchy (classes ErrorToken, Operator, Separator,
Identifier, Keyword, NumberLiteral) as a sum type. -/
inductive Token where
  | ErrorToken (message : List Char) (span : Span)
  | Operator (opType : OperatorType) (span : Span)
  | Separator (sepType : SeparatorType) (span : Span)
  | Identifier (name : List Char) (span : Span)
  | Keyword (keywordType : KeywordType) (span : Span)
  | NumberLiteral (value : List Char) (base : Nat) (span : Span)
deriving DecidableEq, Repr

/-- Scanner state: the fields source, pos, line_start, line of class Lexer. -/
structure LexState where
  source : List Char
  pos : Nat
  lineStart : Nat
  line : Nat
deriving DecidableEq, Repr

/-- The classmethod for_string: a fresh scanner positioned at offset 0. -/
def LexState.forString (src : String) : LexState :=
  ⟨src.data, 0, 0, 0⟩

/-- Python slicing source[a:b] for nonnegative bounds. -/
def slice (l : List Char) (a b : Nat) : List Char :=
  (l.take b).drop a

/-- Python slicing source[i:] where i may be negative (as in the
comment_start sentinel -1). -/
def pySliceFrom (l : List Char) (i : Int) : List Char :=
  if 0 ≤ i then l.drop i.toNat else l.drop (l.length - (-i).toNat)

/-- The method peek(offset): the character at pos+offset, none when out
of bounds (Python raises IndexError there). -/
def peek (s : LexState) (off : Nat) : Option Char :=
  s.source.get? (s.pos + off)

/-- The method has_more(offset). -/
def hasMore (s : LexState) (off : Nat) : Bool :=
  s.pos + off < s.source.length

/-- Advancing the cursor, the statement self.pos += n. -/
def advance (s : LexState) (n : Nat) : LexState :=
  { s with pos := s.pos + n }

/-- The newline handling of skip_whitespace: advance one character, reset
line_start to the new position and increment line. -/
def newlineAdvance (s : LexState) : LexState :=
  ⟨s.source, s.pos + 1, s.pos + 1, s.line + 1⟩

/-- The method build_span(proceed): a span from the current position to
the current position plus proceed, then the cursor advanced by proceed. -/
def buildSpan (s : LexState) (proceed : Nat) : Span × LexState :=
  (⟨s.line, s.pos - s.lineStart, s.line, s.pos - s.lineStart + proceed⟩,
   advance s proceed)

/-- The method is_identifier_char: underscore, alphabetic or digit. -/
def isIdentifierChar (c : Char) : Bool :=
  c == '_' || c.isAlpha || c.isDigit

/-- The method is_numeric. -/
def isNumeric (c : Char) : Bool :=
  c.isDigit

/-- The method is_hex: digit or a lowercase-folded letter a-f. -/
def isHex (c : Char) : Bool :=
  c.isDigit || c.toLower == 'a' || c.toLower == 'b' || c.toLower == 'c'
    || c.toLower == 'd' || c.toLower == 'e' || c.toLower == 'f'

/-- The comment kinds of skip_whitespace ("SINGLE_LINE"/"MULTI_LINE"). -/
inductive CommentType where
  | single | multi
deriving DecidableEq, Repr

/-- The while-loop of skip_whitespace, with the loop-local variables
current_comment_type, multi_line_comment_depth and comment_start as
parameters and an explicit fuel bound.  The result pairs an optional
ErrorToken (the unterminated-block-comment failure) with the state. -/
def skipAux (fuel : Nat) (s : LexState) (ct : Option CommentType)
    (depth : Int) (cstart : Int) : Option (Option Token × LexState) :=
  match fuel with
  | 0 => none
  | fuel + 1 =>
    if hasMore s 0 then
      match peek s 0 with
      | none => none
      | some ch =>
        if ch = ' ' ∨ ch = '\t' then
          skipAux fuel (advance s 1) ct depth cstart
        else if ch = '\n' ∨ ch = '\r' then
          skipAux fuel (newlineAdvance s)
            (if ct = some CommentType.single then none else ct) depth cstart
        else if ch = '/' then
          if ct = some CommentType.single then
            skipAux fuel (advance s 1) ct depth cstart
          else if hasMore s 1 then
            match peek s 1 with
            | none => none
            | some nch =>
              if nch = '/' ∧ ct = none then
                skipAux fuel (advance s 2) (some CommentType.single) depth
                  (s.pos : Int)
              else if nch = '*' then
                skipAux fuel (advance s 2) (some CommentType.multi) (depth + 1)
                  (s.pos : Int)
              else if ct = some CommentType.multi then
                skipAux fuel (advance s 1) ct depth cstart
              else
                some (none, s)
          else if depth > 0 then
            skipAux fuel (advance s 1) ct depth cstart
          else
            some (none, s)
        else
          if ct = some CommentType.multi then
            if ch = '*' ∧ hasMore s 1 ∧ peek s 1 = some '/' then
              skipAux fuel (advance s 2)
                (if depth - 1 = 0 then none else some CommentType.multi)
                (depth - 1) cstart
            else
              skipAux fuel (advance s 1) ct depth cstart
          else if ct = some CommentType.single then
            skipAux fuel (advance s 1) ct depth cstart
          else
            some (none, s)
    else
      if ct = some CommentType.multi then
        let p := buildSpan s 0
        some (some (Token.ErrorToken (pySliceFrom s.source cstart) p.1), p.2)
      else
        some (none, s)

/-- The method skip_whitespace: the loop started with no comment open,
depth 0 and comment_start -1, with enough fuel for the whole source. -/
def skipWhitespace (s : LexState) : Option (Option Token × LexState) :=
  skipAux (s.source.length - s.pos + 1) s none 0 (-1)

/-- The shared shape of the scanning while-loops of
lex_identifier_or_keyword and lex_number: advance while the current
character satisfies the predicate. -/
def charLoop (p : Char → Bool) (fuel : Nat) (s : LexState) : Option LexState :=
  match fuel with
  | 0 => none
  | fuel + 1 =>
    if hasMore s 0 then
      match peek s 0 with
      | none => none
      | some c =>
        if p c then charLoop p fuel (advance s 1) else some s
    else some s

/-- The keyword lookup loop of lex_identifier_or_keyword (for value in
KeywordType, in declaration order IF, ELSE, WHILE). -/
def keywordOf (str : List Char) : Option KeywordType :=
  if str = KeywordType.keyword KeywordType.IF then some KeywordType.IF
  else if str = KeywordType.keyword KeywordType.ELSE then some KeywordType.ELSE
  else if str = KeywordType.keyword KeywordType.WHILE then some KeywordType.WHILE
  else none

/-- The method lex_identifier_or_keyword. -/
def lexIdentifierOrKeyword (s : LexState) : Option (Token × LexState) :=
  match charLoop isIdentifierChar (s.source.length - s.pos + 1) s with
  | none => none
  | some s1 =>
    let idStr := slice s1.source s.pos s1.pos
    let p := buildSpan s1 (s1.pos - s.pos)
    match keywordOf idStr with
    | some kw => some (Token.Keyword kw p.1, p.2)
    | none => some (Token.Identifier idStr p.1, p.2)

/-- The method is_hex_prefix: current character 0 followed by x or X. -/
def isHexPrefixed (s : LexState) : Option Bool :=
  match peek s 0 with
  | none => none
  | some c =>
    if c = '0' then
      if hasMore s 1 then
        match peek s 1 with
        | none => none
        | some c2 => some (c2 == 'x' || c2 == 'X')
      else some false
    else some false

/-- The method lex_number. -/
def lexNumber (s : LexState) : Option (Token × LexState) :=
  match isHexPrefixed s with
  | none => none
  | some true =>
    match charLoop isHex ((advance s 2).source.length - (advance s 2).pos + 1)
        (advance s 2) with
    | none => none
    | some s2 =>
      if s2.pos - s.pos = 2 then
        let p := buildSpan s2 2
        some (Token.ErrorToken (slice s2.source s.pos s2.pos) p.1, p.2)
      else
        let p := buildSpan s2 (s2.pos - s.pos)
        some (Token.NumberLiteral (slice s2.source s.pos s2.pos) 16 p.1, p.2)
  | some false =>
    match charLoop isNumeric (s.source.length - s.pos + 1) s with
    | none => none
    | some s2 =>
      match s2.source.get? s.pos with
      | none => none
      | some c0 =>
        if c0 = '0' ∧ s2.pos - s.pos > 1 then
          let p := buildSpan s2 (s2.pos - s.pos)
          some (Token.ErrorToken (slice s2.source s.pos s2.pos) p.1, p.2)
        else
          let p := buildSpan s2 (s2.pos - s.pos)
          some (Token.NumberLiteral (slice s2.source s.pos s2.pos) 10 p.1, p.2)

/-- The method separator: a one-character separator token. -/
def separatorTok (s : LexState) (t : SeparatorType) : Token × LexState :=
  let p := buildSpan s 1
  (Token.Separator t p.1, p.2)

/-- The method single_or_assign: compound assignment when the next
character is an equals sign, else the single operator. -/
def singleOrAssign (s : LexState) (single assignOp : OperatorType) :
    Option (Token × LexState) :=
  if hasMore s 1 then
    match peek s 1 with
    | none => none
    | some c =>
      if c = '=' then
        let p := buildSpan s 2
        some (Token.Operator assignOp p.1, p.2)
      else
        let p := buildSpan s 1
        some (Token.Operator single p.1, p.2)
  else
    let p := buildSpan s 1
    some (Token.Operator single p.1, p.2)

/-- The character dispatch of next_token (its if/elif chain on the
current character, after the end-of-input test): the produced token and
the state after it. -/
def dispatch (s1 : LexState) (c : Char) : Option (Token × LexState) :=
  if c = '(' then some (separatorTok s1 SeparatorType.PAREN_OPEN)
  else if c = ')' then some (separatorTok s1 SeparatorType.PAREN_CLOSE)
  else if c = Char.ofNat 123 then
    some (separatorTok s1 SeparatorType.BRACE_OPEN)
  else if c = Char.ofNat 125 then
    some (separatorTok s1 SeparatorType.BRACE_CLOSE)
  else if c = ';' then some (separatorTok s1 SeparatorType.SEMICOLON)
  else if c = '-' then
    singleOrAssign s1 OperatorType.MINUS OperatorType.ASSIGN_MINUS
  else if c = '+' then
    singleOrAssign s1 OperatorType.PLUS OperatorType.ASSIGN_PLUS
  else if c = '*' then
    singleOrAssign s1 OperatorType.MUL OperatorType.ASSIGN_MUL
  else if c = '/' then
    singleOrAssign s1 OperatorType.DIV OperatorType.ASSIGN_DIV
  else if c = '%' then
    singleOrAssign s1 OperatorType.MOD OperatorType.ASSIGN_MOD
  else if c = '=' then
    some (Token.Operator OperatorType.ASSIGN (buildSpan s1 1).1,
      (buildSpan s1 1).2)
  else if isIdentifierChar c then
    if isNumeric c then lexNumber s1 else lexIdentifierOrKeyword s1
  else
    some (Token.ErrorToken [c] (buildSpan s1 1).1, (buildSpan s1 1).2)

/-- The method next_token.  The outer Option is the failure monad
(indexing error or loop divergence, proved impossible below); the inner
Option of the result is the end-of-stream sentinel (Python None). -/
def nextToken (s : LexState) : Option (Option Token × LexState) :=
  match skipWhitespace s with
  | none => none
  | some (some err, s1) => some (some err, s1)
  | some (none, s1) =>
    if s1.source.length ≤ s1.pos then some (none, s1)
    else
      match peek s1 0 with
      | none => none
      | some c => (dispatch s1 c).map (fun r => (some r.1, r.2))

/-! ## Basic cursor lemmas -/

theorem peek_eq_some_getElem (s : LexState) (off : Nat)
    (h : s.pos + off < s.source.length) :
    peek s off = some (s.source[s.pos + off]) := by
  simp [peek, List.get?_eq_getElem?, List.getElem?_eq_getElem h]

theorem peek_ne_none (s : LexState) (off : Nat)
    (h : s.pos + off < s.source.length) : peek s off ≠ none := by
  rw [peek_eq_some_getElem s off h]
  exact Option.some_ne_none _

theorem hasMore_iff (s : LexState) (off : Nat) :
    hasMore s off = true ↔ s.pos + off < s.source.length := by
  simp [hasMore]

theorem peek_zero_eq (s : LexState) (h : s.pos < s.source.length) :
    peek s 0 = some (s.source[s.pos]) := by
  have h0 := peek_eq_some_getElem s 0 (by omega)
  simpa using h0

theorem hasMore_of_peek (s : LexState) (off : Nat) (c : Char)
    (h : peek s off = some c) : hasMore s off = true := by
  rw [hasMore_iff]
  by_contra hlt
  rw [peek, List.get?_eq_none.mpr (by omega)] at h
  cases h

/-! ## Termination of the skipper loop -/

theorem skipAux_isSome (fuel : Nat) :
    ∀ (s : LexState) (ct : Option CommentType) (d cstart : Int),
      s.source.length - s.pos < fuel →
      (skipAux fuel s ct d cstart).isSome = true := by
  induction fuel with
  | zero => intro s ct d cstart h; omega
  | succ fuel ih =>
    intro s ct d cstart h
    rw [skipAux]
    by_cases hm : s.pos < s.source.length
    · have hm' : hasMore s 0 = true := by rw [hasMore_iff]; omega
      rw [peek_zero_eq s (by omega)]
      simp only [hm', if_true]
      repeat' split
      all_goals first
        | rfl
        | (exact ih _ _ _ _ (by simp only [advance, newlineAdvance]; omega))
        | (exact absurd ‹peek s 1 = none›
            (peek_ne_none s 1 ((hasMore_iff s 1).mp ‹hasMore s 1 = true›)))
    · have hm' : hasMore s 0 = false := by
        rw [← Bool.not_eq_true, hasMore_iff]; omega
      simp only [hm', Bool.false_eq_true, if_false]
      split <;> rfl

/-! ## The character-scanning loop -/

theorem charLoop_isSome (p : Char → Bool) (fuel : Nat) :
    ∀ (s : LexState), s.source.length - s.pos < fuel →
      (charLoop p fuel s).isSome = true := by
  induction fuel with
  | zero => intro s h; omega
  | succ fuel ih =>
    intro s h
    rw [charLoop]
    by_cases hm : s.pos < s.source.length
    · have hm' : hasMore s 0 = true := by rw [hasMore_iff]; omega
      rw [peek_zero_eq s (by omega)]
      simp only [hm', if_true]
      split
      · exact ih _ (by simp only [advance]; omega)
      · rfl
    · have hm' : hasMore s 0 = false := by
        rw [← Bool.not_eq_true, hasMore_iff]; omega
      simp [hm']

theorem charLoop_eq (p : Char → Bool) (fuel : Nat) :
    ∀ (s : LexState), s.source.length - s.pos < fuel →
      charLoop p fuel s =
        some (advance s ((s.source.drop s.pos).takeWhile p).length) := by
  induction fuel with
  | zero => intro s h; omega
  | succ fuel ih =>
    intro s h
    rw [charLoop]
    by_cases hm : s.pos < s.source.length
    · have hm' : hasMore s 0 = true := by rw [hasMore_iff]; omega
      rw [peek_zero_eq s (by omega)]
      simp only [hm', if_true]
      have hdrop : s.source.drop s.pos =
          s.source[s.pos] :: s.source.drop (s.pos + 1) := by
        exact List.drop_eq_getElem_cons (l := s.source) (n := s.pos) (by omega)
      by_cases hp : p (s.source[s.pos]) = true
      · simp only [hp, if_true]
        rw [ih (advance s 1) (by simp only [advance]; omega)]
        simp only [advance]
        rw [hdrop, List.takeWhile_cons_of_pos hp]
        simp only [List.length_cons]
        have harr : s.pos + 1 +
              (List.takeWhile p (List.drop (s.pos + 1) s.source)).length =
            s.pos +
              ((List.takeWhile p (List.drop (s.pos + 1) s.source)).length + 1)
          := by omega
        rw [harr]
      · simp only [hp, Bool.false_eq_true, if_false]
        rw [hdrop, List.takeWhile_cons_of_neg (by simp [hp])]
        simp [advance]
    · have hm' : hasMore s 0 = false := by
        rw [← Bool.not_eq_true, hasMore_iff]; omega
      have hdrop : s.source.drop s.pos = [] := by
        apply List.drop_eq_nil_of_le; omega
      simp [hm', hdrop, advance]

/-! ## List helpers -/

theorem take_takeWhile_length (p : Char → Bool) :
    ∀ l : List Char, l.take (l.takeWhile p).length = l.takeWhile p := by
  intro l
  induction l with
  | nil => rfl
  | cons a l ih =>
    by_cases hp : p a = true
    · simp [List.takeWhile_cons_of_pos hp, ih]
    · simp [List.takeWhile_cons_of_neg hp]

theorem slice_take (l : List Char) (a n : Nat) :
    slice l a (a + n) = (l.drop a).take n := by
  unfold slice
  rw [List.drop_take]
  congr 1
  omega

/-! ## The identifier/keyword recognizer -/

/-- The maximal run of identifier characters at the cursor. -/
def identRun (s : LexState) : List Char :=
  (s.source.drop s.pos).takeWhile isIdentifierChar

/-- The span the recognizer actually builds for that run (it starts at
the position reached after the scanning loop, not at the token start). -/
def identSpan (s : LexState) : Span :=
  ⟨s.line, s.pos + (identRun s).length - s.lineStart, s.line,
   s.pos + (identRun s).length - s.lineStart + (identRun s).length⟩

theorem lexIdentifierOrKeyword_eq (s : LexState) :
    lexIdentifierOrKeyword s = some (
      (match keywordOf (identRun s) with
       | some kw => Token.Keyword kw (identSpan s)
       | none => Token.Identifier (identRun s) (identSpan s)),
      ⟨s.source, s.pos + (identRun s).length + (identRun s).length,
        s.lineStart, s.line⟩) := by
  unfold lexIdentifierOrKeyword
  rw [charLoop_eq isIdentifierChar (s.source.length - s.pos + 1) s (by omega)]
  simp only [advance, buildSpan, Nat.add_sub_cancel_left, slice_take,
    take_takeWhile_length, identRun, identSpan]
  cases keywordOf (List.takeWhile isIdentifierChar (List.drop s.pos s.source))
    <;> rfl

/-! ## Claim theorems -/

/-- C5: for every maximal run of identifier characters at the cursor, the
identifier/keyword recognizer returns a Keyword token exactly when the
run equals one of the three spellings if, else, while (with the matching
kind), and otherwise an Identifier whose name equals the run. -/
theorem claim5_keyword_identifier_partition (s : LexState) :
    ∃ sp st, lexIdentifierOrKeyword s = some (
      (if identRun s = KeywordType.keyword KeywordType.IF then
        Token.Keyword KeywordType.IF sp
      else if identRun s = KeywordType.keyword KeywordType.ELSE then
        Token.Keyword KeywordType.ELSE sp
      else if identRun s = KeywordType.keyword KeywordType.WHILE then
        Token.Keyword KeywordType.WHILE sp
      else Token.Identifier (identRun s) sp), st) := by
  refine ⟨identSpan s,
    ⟨s.source, s.pos + (identRun s).length + (identRun s).length,
      s.lineStart, s.line⟩, ?_⟩
  rw [lexIdentifierOrKeyword_eq]
  unfold keywordOf
  by_cases h1 : identRun s = KeywordType.keyword KeywordType.IF
  · simp [h1, KeywordType.keyword]
  · by_cases h2 : identRun s = KeywordType.keyword KeywordType.ELSE
    · simp [h1, h2, KeywordType.keyword]
    · by_cases h3 : identRun s = KeywordType.keyword KeywordType.WHILE
      · simp [h1, h2, h3, KeywordType.keyword]
      · simp only [KeywordType.keyword] at h1 h2 h3 ⊢
        simp [h1, h2, h3]

/-- C1: span correctness fails on the code: on input ab the single
returned token is an Identifier named ab whose span covers columns 2 to 4
of line 0 (the recognizer advances the cursor before building the span,
and then advances it again), and the substring of the source selected by
that span is empty rather than the token text. -/
theorem claim1_span_mismatch_eval :
    nextToken (LexState.forString "ab") =
      some (some (Token.Identifier ['a', 'b'] ⟨0, 2, 0, 4⟩),
        ⟨['a', 'b'], 4, 0, 0⟩) ∧
    slice ['a', 'b'] 2 4 ≠ ['a', 'b'] := by
  constructor
  · decide
  · decide

/-- C2: coverage fails on the code: on input consisting of a, b and a
semicolon, the first call returns the identifier ab but leaves the cursor
at offset 4, past the semicolon, and the second call returns the
end-of-stream sentinel, so the semicolon is consumed by neither the
skipper nor any token. -/
theorem claim2_coverage_violation_eval :
    nextToken (LexState.forString "ab;") =
      some (some (Token.Identifier ['a', 'b'] ⟨0, 2, 0, 4⟩),
        ⟨['a', 'b', ';'], 4, 0, 0⟩) ∧
    nextToken ⟨['a', 'b', ';'], 4, 0, 0⟩ =
      some (none, ⟨['a', 'b', ';'], 4, 0, 0⟩) := by
  constructor
  · decide
  · decide

/-- C3: on input 007 the scanner does return a single ErrorToken whose
message is the full run 007, but its span covers columns 3 to 6 of line 0
rather than columns 0 to 3 as the claim states (build_span is called
after the digit loop has already advanced the cursor). -/
theorem claim3_leading_zero_eval :
    nextToken (LexState.forString "007") =
      some (some (Token.ErrorToken ['0', '0', '7'] ⟨0, 3, 0, 6⟩),
        ⟨['0', '0', '7'], 6, 0, 0⟩) := by
  decide

/-- C4: on input 0x1A3 the scanner does return a single NumberLiteral
with text 0x1A3 and base 16, but its span covers columns 5 to 10 of
line 0 rather than columns 0 to 5 as the claim states (build_span is
called after the hex-digit loop has already advanced the cursor). -/
theorem claim4_hex_literal_eval :
    nextToken (LexState.forString "0x1A3") =
      some (some (Token.NumberLiteral ['0', 'x', '1', 'A', '3'] 16
          ⟨0, 5, 0, 10⟩),
        ⟨['0', 'x', '1', 'A', '3'], 10, 0, 0⟩) := by
  decide

/-- C6: each block-comment opener seen by the skipper, also while already
inside a block comment, increments the nesting depth and consumes two
characters; each closer seen inside a block comment consumes two
characters, decrements the depth and leaves the block-comment state
exactly when the depth returns to zero; consequently on a balanced nested
comment followed by the identifier ab the whole comment is skipped and
the first returned token is that identifier. -/
theorem claim6_nested_block_comments :
    (∀ (fuel : Nat) (s : LexState) (ct : Option CommentType) (d cstart : Int),
      peek s 0 = some '/' → peek s 1 = some '*' →
      ct ≠ some CommentType.single →
      skipAux (fuel + 1) s ct d cstart =
        skipAux fuel (advance s 2) (some CommentType.multi) (d + 1)
          (s.pos : Int)) ∧
    (∀ (fuel : Nat) (s : LexState) (d cstart : Int),
      peek s 0 = some '*' → peek s 1 = some '/' →
      skipAux (fuel + 1) s (some CommentType.multi) d cstart =
        skipAux fuel (advance s 2)
          (if d - 1 = 0 then none else some CommentType.multi) (d - 1)
          cstart) ∧
    nextToken (LexState.forString "/* /* x */ */ab") =
      some (some (Token.Identifier ['a', 'b'] ⟨0, 15, 0, 17⟩),
        ⟨['/', '*', ' ', '/', '*', ' ', 'x', ' ', '*', '/', ' ', '*', '/',
          'a', 'b'], 17, 0, 0⟩) := by
  refine ⟨?_, ?_, by decide⟩
  · intro fuel s ct d cstart h0 h1 hct
    have hm0 := hasMore_of_peek s 0 '/' h0
    have hm1 := hasMore_of_peek s 1 '*' h1
    rw [skipAux]
    simp +decide [hm0, hm1, h0, h1, hct]
  · intro fuel s d cstart h0 h1
    have hm0 := hasMore_of_peek s 0 '*' h0
    have hm1 := hasMore_of_peek s 1 '/' h1
    rw [skipAux]
    simp +decide [hm0, hm1, h0, h1]

/-- Closed instances of the two step equations of the nested-comment
claim, at the opening and closing delimiters of the input consisting of
a block comment open, a nested open, an x and two closes. -/
theorem claim6_nested_block_comments_witness :
    (skipAux 14 (LexState.forString "/* /* x */ */ab") none 0 (-1) =
      skipAux 13 (advance (LexState.forString "/* /* x */ */ab") 2)
        (some CommentType.multi) (0 + 1) (0 : Int)) ∧
    (skipAux 8 ⟨"/* /* x */ */ab".data, 8, 0, 0⟩
        (some CommentType.multi) 2 (3 : Int) =
      skipAux 7 (advance ⟨"/* /* x */ */ab".data, 8, 0, 0⟩ 2)
        (if (2 : Int) - 1 = 0 then none else some CommentType.multi)
        ((2 : Int) - 1) (3 : Int)) := by
  constructor
  · exact claim6_nested_block_comments.1 13 (LexState.forString "/* /* x */ */ab")
      none 0 (-1) (by decide) (by decide) (by decide)
  · exact claim6_nested_block_comments.2.1 7 ⟨"/* /* x */ */ab".data, 8, 0, 0⟩
      2 (3 : Int) (by decide) (by decide)

/-- An emitted token never maps to the end-of-stream sentinel. -/
theorem map_ne_sentinel (X : Option (Token × LexState)) (s' : LexState) :
    X.map (fun r => (some r.1, r.2)) ≠ some (none, s') := by
  cases X with
  | none => simp
  | some r => simp

/-- The skipper does nothing when the cursor is at or past end of input. -/
theorem skipWhitespace_atEnd (s : LexState) (h : s.source.length ≤ s.pos) :
    skipWhitespace s = some (none, s) := by
  unfold skipWhitespace
  rw [Nat.sub_eq_zero_of_le h]
  rw [skipAux]
  rw [if_neg (by rw [hasMore_iff]; omega)]
  rw [if_neg (by simp)]

/-- The sentinel is only returned with the cursor at or past the end. -/
theorem sentinel_atEnd (s s' : LexState)
    (h : nextToken s = some (none, s')) : s'.source.length ≤ s'.pos := by
  unfold nextToken at h
  cases hskip : skipWhitespace s with
  | none => rw [hskip] at h; cases h
  | some r =>
    obtain ⟨ot, s1⟩ := r
    rw [hskip] at h
    cases ot with
    | some e => simp at h
    | none =>
      simp only at h
      by_cases hend : s1.source.length ≤ s1.pos
      · rw [if_pos hend] at h
        simp only [Option.some.injEq, Prod.mk.injEq, true_and] at h
        exact h ▸ hend
      · rw [if_neg hend] at h
        split at h
        · cases h
        · exact absurd h (map_ne_sentinel _ _)

/-- C8: the end-of-stream sentinel is returned only with the cursor at or
past the end of the input, and exhaustion is terminal: a call made from
the state a sentinel-returning call left behind returns the sentinel
again, with the state unchanged, never an error and never a token. -/
theorem claim8_exhaustion_terminal (s s' : LexState)
    (h : nextToken s = some (none, s')) :
    s'.source.length ≤ s'.pos ∧ nextToken s' = some (none, s') := by
  have hpos := sentinel_atEnd s s' h
  refine ⟨hpos, ?_⟩
  unfold nextToken
  rw [skipWhitespace_atEnd s' hpos]
  simp only [if_pos hpos]

/-- Closed instance of the exhaustion-terminality theorem on the empty
input. -/
theorem claim8_exhaustion_terminal_witness :
    (⟨[], 0, 0, 0⟩ : LexState).source.length ≤
        (⟨[], 0, 0, 0⟩ : LexState).pos ∧
      nextToken ⟨[], 0, 0, 0⟩ = some (none, ⟨[], 0, 0, 0⟩) :=
  claim8_exhaustion_terminal (LexState.forString "") ⟨[], 0, 0, 0⟩ (by decide)

/-- C9: every loop of the scanner terminates: the skipper loop finishes
within one step per remaining character (every iteration advances the
position or returns), and so does the character-scanning loop of the
identifier and number recognizers. -/
theorem claim9_loops_terminate :
    (∀ (fuel : Nat) (s : LexState) (ct : Option CommentType) (d cstart : Int),
      s.source.length - s.pos < fuel →
      (skipAux fuel s ct d cstart).isSome = true) ∧
    (∀ (p : Char → Bool) (fuel : Nat) (s : LexState),
      s.source.length - s.pos < fuel →
      (charLoop p fuel s).isSome = true) :=
  ⟨fun fuel s ct d cstart h => skipAux_isSome fuel s ct d cstart h,
   fun p fuel s h => charLoop_isSome p fuel s h⟩

/-- Closed instance of the loop-termination theorem on the empty input
with one unit of fuel. -/
theorem claim9_loops_terminate_witness :
    (skipAux 1 ⟨[], 0, 0, 0⟩ none 0 (-1)).isSome = true ∧
      (charLoop isIdentifierChar 1 ⟨[], 0, 0, 0⟩).isSome = true :=
  ⟨claim9_loops_terminate.1 1 ⟨[], 0, 0, 0⟩ none 0 (-1) (by decide),
   claim9_loops_terminate.2 isIdentifierChar 1 ⟨[], 0, 0, 0⟩ (by decide)⟩

/-! ## Totality of the scanner -/

theorem singleOrAssign_isSome (s : LexState) (a b : OperatorType) :
    (singleOrAssign s a b).isSome = true := by
  unfold singleOrAssign
  by_cases hm : hasMore s 1 = true
  · rw [if_pos hm, peek_eq_some_getElem s 1 ((hasMore_iff s 1).mp hm)]
    dsimp only
    split <;> rfl
  · rw [if_neg hm]
    rfl

theorem isHexPrefixed_isSome (s : LexState) (h : s.pos < s.source.length) :
    (isHexPrefixed s).isSome = true := by
  unfold isHexPrefixed
  rw [peek_zero_eq s h]
  dsimp only
  split
  · by_cases hm1 : hasMore s 1 = true
    · rw [if_pos hm1, peek_eq_some_getElem s 1 ((hasMore_iff s 1).mp hm1)]
      rfl
    · rw [if_neg hm1]
      rfl
  · rfl

theorem lexNumber_isSome (s : LexState) (h : s.pos < s.source.length) :
    (lexNumber s).isSome = true := by
  unfold lexNumber
  cases hhp : isHexPrefixed s with
  | none =>
    have hiso := isHexPrefixed_isSome s h
    rw [hhp] at hiso
    cases hiso
  | some b =>
    cases b with
    | true =>
      rw [charLoop_eq isHex _ (advance s 2) (by omega)]
      dsimp only
      split <;> rfl
    | false =>
      rw [charLoop_eq isNumeric _ s (by omega)]
      dsimp only [advance]
      rw [List.get?_eq_getElem?, List.getElem?_eq_getElem h]
      dsimp only
      split <;> rfl

theorem dispatch_isSome (s1 : LexState) (c : Char)
    (h : s1.pos < s1.source.length) : (dispatch s1 c).isSome = true := by
  unfold dispatch
  by_cases h1 : c = '('
  · rw [if_pos h1]; rfl
  rw [if_neg h1]
  by_cases h2 : c = ')'
  · rw [if_pos h2]; rfl
  rw [if_neg h2]
  by_cases h3 : c = Char.ofNat 123
  · rw [if_pos h3]; rfl
  rw [if_neg h3]
  by_cases h4 : c = Char.ofNat 125
  · rw [if_pos h4]; rfl
  rw [if_neg h4]
  by_cases h5 : c = ';'
  · rw [if_pos h5]; rfl
  rw [if_neg h5]
  by_cases h6 : c = '-'
  · rw [if_pos h6]; exact singleOrAssign_isSome s1 _ _
  rw [if_neg h6]
  by_cases h7 : c = '+'
  · rw [if_pos h7]; exact singleOrAssign_isSome s1 _ _
  rw [if_neg h7]
  by_cases h8 : c = '*'
  · rw [if_pos h8]; exact singleOrAssign_isSome s1 _ _
  rw [if_neg h8]
  by_cases h9 : c = '/'
  · rw [if_pos h9]; exact singleOrAssign_isSome s1 _ _
  rw [if_neg h9]
  by_cases h10 : c = '%'
  · rw [if_pos h10]; exact singleOrAssign_isSome s1 _ _
  rw [if_neg h10]
  by_cases h11 : c = '='
  · rw [if_pos h11]; rfl
  rw [if_neg h11]
  by_cases h12 : isIdentifierChar c = true
  · rw [if_pos h12]
    by_cases h13 : isNumeric c = true
    · rw [if_pos h13]; exact lexNumber_isSome s1 h
    · rw [if_neg h13]; rw [lexIdentifierOrKeyword_eq]; rfl
  · rw [if_neg h12]; rfl

/-- C10: the scanner never indexes the source out of bounds and never
fails: on every state, next_token (with every peek modelled as a
bounds-checked access and every loop given its natural fuel) produces a
result, a token or the sentinel. -/
theorem claim10_next_token_total (s : LexState) :
    (nextToken s).isSome = true := by
  unfold nextToken
  cases hskip : skipWhitespace s with
  | none =>
    have hs := skipAux_isSome (s.source.length - s.pos + 1) s none 0 (-1)
      (by omega)
    rw [skipWhitespace] at hskip
    rw [hskip] at hs
    cases hs
  | some r =>
    obtain ⟨ot, s1⟩ := r
    cases ot with
    | some e => rfl
    | none =>
      dsimp only
      by_cases hend : s1.source.length ≤ s1.pos
      · rw [if_pos hend]; rfl
      · rw [if_neg hend]
        rw [peek_zero_eq s1 (by omega)]
        dsimp only
        rw [Option.isSome_map']
        exact dispatch_isSome s1 _ (by omega)

/-! ## Shape of the unterminated-block-comment error -/

theorem skipAux_error_inv (fuel : Nat) :
    ∀ (s : LexState) (ct : Option CommentType) (d cstart : Int) (e : Token)
      (s' : LexState),
      (ct = some CommentType.multi →
        ∃ c : Nat, cstart = (c : Int) ∧ s.source.get? c = some '/' ∧
          s.source.get? (c + 1) = some '*') →
      skipAux fuel s ct d cstart = some (some e, s') →
      s'.source = s.source ∧ s'.source.length ≤ s'.pos ∧
      ∃ c : Nat, s.source.get? c = some '/' ∧
        s.source.get? (c + 1) = some '*' ∧
        e = Token.ErrorToken (s.source.drop c)
          ⟨s'.line, s'.pos - s'.lineStart, s'.line, s'.pos - s'.lineStart⟩ := by
  induction fuel with
  | zero =>
    intro s ct d cs e s' inv hrun
    rw [skipAux] at hrun
    cases hrun
  | succ fuel ih =>
    intro s ct d cs e s' inv hrun
    rw [skipAux] at hrun
    by_cases hm : hasMore s 0 = true
    · have hlt : s.pos < s.source.length := by
        have := (hasMore_iff s 0).mp hm; omega
      rw [if_pos hm, peek_zero_eq s hlt] at hrun
      dsimp only at hrun
      by_cases hb1 : s.source[s.pos] = ' ' ∨ s.source[s.pos] = '\t'
      · rw [if_pos hb1] at hrun
        exact ih (advance s 1) ct d cs e s' inv hrun
      rw [if_neg hb1] at hrun
      by_cases hb2 : s.source[s.pos] = '\n' ∨ s.source[s.pos] = '\r'
      · rw [if_pos hb2] at hrun
        refine ih (newlineAdvance s)
          (if ct = some CommentType.single then none else ct) d cs e s'
          ?_ hrun
        intro hmult
        by_cases hsing : ct = some CommentType.single
        · rw [if_pos hsing] at hmult; cases hmult
        · rw [if_neg hsing] at hmult; exact inv hmult
      rw [if_neg hb2] at hrun
      by_cases hb3 : s.source[s.pos] = '/'
      · rw [if_pos hb3] at hrun
        by_cases hsing : ct = some CommentType.single
        · rw [if_pos hsing] at hrun
          exact ih (advance s 1) ct d cs e s' inv hrun
        rw [if_neg hsing] at hrun
        by_cases hm1 : hasMore s 1 = true
        · have hlt1 : s.pos + 1 < s.source.length := (hasMore_iff s 1).mp hm1
          rw [if_pos hm1, peek_eq_some_getElem s 1 hlt1] at hrun
          dsimp only at hrun
          by_cases hb4 : s.source[s.pos + 1] = '/' ∧ ct = none
          · rw [if_pos hb4] at hrun
            refine ih (advance s 2) (some CommentType.single) d
              (s.pos : Int) e s' ?_ hrun
            intro hx; cases hx
          rw [if_neg hb4] at hrun
          by_cases hb5 : s.source[s.pos + 1] = '*'
          · rw [if_pos hb5] at hrun
            refine ih (advance s 2) (some CommentType.multi) (d + 1)
              (s.pos : Int) e s' ?_ hrun
            intro _
            refine ⟨s.pos, rfl, ?_, ?_⟩
            · dsimp only [advance]
              rw [List.get?_eq_getElem?, List.getElem?_eq_getElem hlt, hb3]
            · dsimp only [advance]
              rw [List.get?_eq_getElem?, List.getElem?_eq_getElem hlt1, hb5]
          rw [if_neg hb5] at hrun
          by_cases hb6 : ct = some CommentType.multi
          · rw [if_pos hb6] at hrun
            exact ih (advance s 1) ct d cs e s' inv hrun
          · rw [if_neg hb6] at hrun
            simp at hrun
        rw [if_neg hm1] at hrun
        by_cases hd : d > 0
        · rw [if_pos hd] at hrun
          exact ih (advance s 1) ct d cs e s' inv hrun
        · rw [if_neg hd] at hrun
          simp at hrun
      rw [if_neg hb3] at hrun
      by_cases hmult : ct = some CommentType.multi
      · rw [if_pos hmult] at hrun
        by_cases hb7 : s.source[s.pos] = '*' ∧ hasMore s 1 = true ∧
            peek s 1 = some '/'
        · rw [if_pos hb7] at hrun
          refine ih (advance s 2)
            (if d - 1 = 0 then none else some CommentType.multi) (d - 1) cs
            e s' ?_ hrun
          intro _
          exact inv hmult
        · rw [if_neg hb7] at hrun
          exact ih (advance s 1) ct d cs e s' inv hrun
      rw [if_neg hmult] at hrun
      by_cases hsing : ct = some CommentType.single
      · rw [if_pos hsing] at hrun
        exact ih (advance s 1) ct d cs e s' inv hrun
      · rw [if_neg hsing] at hrun
        simp at hrun
    · rw [if_neg hm] at hrun
      by_cases hct : ct = some CommentType.multi
      · rw [if_pos hct] at hrun
        obtain ⟨c, hcs, hsl, hst⟩ := inv hct
        dsimp only [buildSpan] at hrun
        simp only [Option.some.injEq, Prod.mk.injEq] at hrun
        obtain ⟨he, hs'⟩ := hrun
        subst hs'
        refine ⟨rfl, ?_, c, hsl, hst, ?_⟩
        · have hnm : ¬ s.pos + 0 < s.source.length := by
            intro hc; exact hm ((hasMore_iff s 0).mpr hc)
          simp only [advance]
          omega
        · rw [← he, hcs]
          simp [pySliceFrom, advance]
      · rw [if_neg hct] at hrun
        simp at hrun

/-- C7: when the skipper reaches end of input while a block comment is
still open, next_token returns that ErrorToken unchanged; the token's
message is the remaining source text from the recorded comment-opener
offset (a position holding a slash immediately followed by a star) to the
end of input, and its span has zero width at the current position, with
the cursor at or past end of input. -/
theorem claim7_unterminated_comment (s : LexState) (e : Token)
    (s' : LexState) (h : skipWhitespace s = some (some e, s')) :
    nextToken s = some (some e, s') ∧
    s'.source = s.source ∧ s'.source.length ≤ s'.pos ∧
    ∃ c : Nat, s.source.get? c = some '/' ∧
      s.source.get? (c + 1) = some '*' ∧
      e = Token.ErrorToken (s.source.drop c)
        ⟨s'.line, s'.pos - s'.lineStart, s'.line, s'.pos - s'.lineStart⟩ := by
  refine ⟨?_, skipAux_error_inv _ s none 0 (-1) e s' (fun hc => by cases hc) h⟩
  unfold nextToken
  rw [h]

/-- Closed instance of the unterminated-comment theorem on the spec's
example input: the message is the whole remaining source and the span is
empty at the end-of-input position. -/
theorem claim7_unterminated_comment_witness :
    nextToken (LexState.forString "/* unterminated") =
      some (some (Token.ErrorToken
          ['/', '*', ' ', 'u', 'n', 't', 'e', 'r', 'm', 'i', 'n', 'a', 't',
            'e', 'd'] ⟨0, 15, 0, 15⟩),
        ⟨['/', '*', ' ', 'u', 'n', 't', 'e', 'r', 'm', 'i', 'n', 'a', 't',
            'e', 'd'], 15, 0, 0⟩) ∧
    (⟨['/', '*', ' ', 'u', 'n', 't', 'e', 'r', 'm', 'i', 'n', 'a', 't',
        'e', 'd'], 15, 0, 0⟩ : LexState).source =
      (LexState.forString "/* unterminated").source ∧
    (⟨['/', '*', ' ', 'u', 'n', 't', 'e', 'r', 'm', 'i', 'n', 'a', 't',
        'e', 'd'], 15, 0, 0⟩ : LexState).source.length ≤
      (⟨['/', '*', ' ', 'u', 'n', 't', 'e', 'r', 'm', 'i', 'n', 'a', 't',
        'e', 'd'], 15, 0, 0⟩ : LexState).pos ∧
    ∃ c : Nat,
      (LexState.forString "/* unterminated").source.get? c = some '/' ∧
      (LexState.forString "/* unterminated").source.get? (c + 1) = some '*' ∧
      Token.ErrorToken
          ['/', '*', ' ', 'u', 'n', 't', 'e', 'r', 'm', 'i', 'n', 'a', 't',
            'e', 'd'] ⟨0, 15, 0, 15⟩ =
        Token.ErrorToken ((LexState.forString "/* unterminated").source.drop c)
          ⟨0, 15 - 0, 0, 15 - 0⟩ :=
  claim7_unterminated_comment (LexState.forString "/* unterminated")
    (Token.ErrorToken
      ['/', '*', ' ', 'u', 'n', 't', 'e', 'r', 'm', 'i', 'n', 'a', 't',
        'e', 'd'] ⟨0, 15, 0, 15⟩)
    ⟨['/', '*', ' ', 'u', 'n', 't', 'e', 'r', 'm', 'i', 'n', 'a', 't',
        'e', 'd'], 15, 0, 0⟩ (by decide)

end Lexer
